import Mathlib

set_option maxRecDepth 16384

/-!
Verification development for the NCCH container layer of the citra emulator
(`src/core/file_sys/ncch_container.h`) and its loader dispatch
(`src/core/loader/loader.cpp`).

The header file fixes the binary layouts (`NCCH_Header`, `ExeFs_Header`,
`ExHeader_Header`) and the `NCCHContainer` state (flags, offsets); the method
bodies of `NCCHContainer` are not part of the two source files, so their
behaviour is modelled from the specification, as marked on each definition.
The loader dispatch (`IdentifyFile`, `GuessFromExtension`, `LoadFile`) is
embedded directly from `loader.cpp`.
-/

namespace Citra

/-- Result statuses surfaced by the loader layer (`Loader::ResultStatus`
restricted to the kinds the specification uses). -/
inductive ResultStatus where
  | success
  | error
  | errorInvalidFormat
  | errorNotFound
  | errorNotLoaded
  | errorCorruptData
  deriving DecidableEq, Repr

/-- A byte-addressable source: a flat list of byte values. -/
abbrev ByteSource := List Nat

/-- Read exactly `len` bytes at `pos`; `none` when the source cannot fill the
exact count (a short read). -/
def readBytes (src : ByteSource) (pos len : Nat) : Option (List Nat) :=
  if pos + len ≤ src.length then some ((src.drop pos).take len) else none

/-- Byte at index `i`, 0 past the end. -/
def byteAt (bs : List Nat) (i : Nat) : Nat := bs.getD i 0

/-- Little-endian 32-bit decode at byte offset `off`. -/
def readU32LE (bs : List Nat) (off : Nat) : Nat :=
  byteAt bs off + 256 * byteAt bs (off + 1) + 65536 * byteAt bs (off + 2) +
    16777216 * byteAt bs (off + 3)

/-- Little-endian 64-bit decode at byte offset `off`. -/
def readU64LE (bs : List Nat) (off : Nat) : Nat :=
  readU32LE bs off + 4294967296 * readU32LE bs (off + 4)

/-- A fixed-offset record layout: field names with their byte sizes, in
declaration order. -/
def layoutSize (l : List (String × Nat)) : Nat := (l.map Prod.snd).sum

/-- Byte offset of the named field inside a layout (sum of the sizes of the
fields declared before it). -/
def fieldOffset : List (String × Nat) → String → Nat
  | [], _ => 0
  | (n, s) :: rest, name => if n = name then 0 else s + fieldOffset rest name

/-- Field layout of `NCCH_Header`, field for field from the struct
declaration. -/
def ncchHeaderLayout : List (String × Nat) :=
  [("signature", 0x100), ("magic", 4), ("content_size", 4), ("partition_id", 8),
   ("maker_code", 2), ("version", 2), ("reserved_0", 4), ("program_id", 8),
   ("reserved_1", 0x10), ("logo_region_hash", 0x20), ("product_code", 0x10),
   ("extended_header_hash", 0x20), ("extended_header_size", 4), ("reserved_2", 4),
   ("flags", 8), ("plain_region_offset", 4), ("plain_region_size", 4),
   ("logo_region_offset", 4), ("logo_region_size", 4), ("exefs_offset", 4),
   ("exefs_size", 4), ("exefs_hash_region_size", 4), ("reserved_3", 4),
   ("romfs_offset", 4), ("romfs_size", 4), ("romfs_hash_region_size", 4),
   ("reserved_4", 4), ("exefs_super_block_hash", 0x20),
   ("romfs_super_block_hash", 0x20)]

/-- Field layout of `ExHeader_SystemInfoFlags`. -/
def exSystemInfoFlagsLayout : List (String × Nat) :=
  [("reserved", 5), ("flag", 1), ("remaster_version", 2)]

/-- Field layout of `ExHeader_CodeSegmentInfo`. -/
def exCodeSegmentInfoLayout : List (String × Nat) :=
  [("address", 4), ("num_max_pages", 4), ("code_size", 4)]

/-- Field layout of `ExHeader_CodeSetInfo`. -/
def exCodeSetInfoLayout : List (String × Nat) :=
  [("name", 8), ("flags", layoutSize exSystemInfoFlagsLayout),
   ("text", layoutSize exCodeSegmentInfoLayout), ("stack_size", 4),
   ("ro", layoutSize exCodeSegmentInfoLayout), ("reserved", 4),
   ("data", layoutSize exCodeSegmentInfoLayout), ("bss_size", 4)]

/-- Field layout of `ExHeader_SystemInfo`. -/
def exSystemInfoLayout : List (String × Nat) :=
  [("save_data_size", 8), ("jump_id", 8), ("reserved_2", 0x30)]

/-- Field layout of `ExHeader_StorageInfo`. -/
def exStorageInfoLayout : List (String × Nat) :=
  [("ext_save_data_id", 8), ("system_save_data_id", 8), ("reserved", 8),
   ("access_info", 7), ("other_attributes", 1)]

/-- Field layout of `ExHeader_ARM11_SystemLocalCaps` (the anonymous union of
`flags0` with the three bit fields occupies one byte). -/
def exArm11LocalCapsLayout : List (String × Nat) :=
  [("program_id", 8), ("core_version", 4), ("reserved_flags", 2), ("flags0", 1),
   ("priority", 1), ("resource_limit_descriptor", 0x10 * 2),
   ("storage_info", layoutSize exStorageInfoLayout),
   ("service_access_control", 0x20 * 8), ("ex_service_access_control", 2 * 8),
   ("reserved", 0xf), ("resource_limit_category", 1)]

/-- Field layout of `ExHeader_ARM11_KernelCaps`. -/
def exArm11KernelCapsLayout : List (String × Nat) :=
  [("descriptors", 28 * 4), ("reserved", 0x10)]

/-- Field layout of `ExHeader_ARM9_AccessControl`. -/
def exArm9AccessControlLayout : List (String × Nat) :=
  [("descriptors", 15), ("descversion", 1)]

/-- Field layout of the anonymous `access_desc` struct inside
`ExHeader_Header`. -/
def exAccessDescLayout : List (String × Nat) :=
  [("signature", 0x100), ("ncch_public_key_modulus", 0x100),
   ("arm11_system_local_caps", layoutSize exArm11LocalCapsLayout),
   ("arm11_kernel_caps", layoutSize exArm11KernelCapsLayout),
   ("arm9_access_control", layoutSize exArm9AccessControlLayout)]

/-- Field layout of `ExHeader_Header`. -/
def exHeaderLayout : List (String × Nat) :=
  [("codeset_info", layoutSize exCodeSetInfoLayout),
   ("dependency_list", 0x30 * 8),
   ("system_info", layoutSize exSystemInfoLayout),
   ("arm11_system_local_caps", layoutSize exArm11LocalCapsLayout),
   ("arm11_kernel_caps", layoutSize exArm11KernelCapsLayout),
   ("arm9_access_control", layoutSize exArm9AccessControlLayout),
   ("access_desc", layoutSize exAccessDescLayout)]

/-- Field layout of `ExeFs_SectionHeader`. -/
def exefsSectionLayout : List (String × Nat) :=
  [("name", 8), ("offset", 4), ("size", 4)]

/-- Field layout of `ExeFs_Header`: 8 section descriptors, reserved bytes,
8 region hashes of 0x20 bytes each. -/
def exefsHeaderLayout : List (String × Nat) :=
  [("section", 8 * layoutSize exefsSectionLayout), ("reserved", 0x80),
   ("hashes", 8 * 0x20)]

example : layoutSize ncchHeaderLayout = 0x200 := by decide
example : layoutSize exHeaderLayout = 0x800 := by decide
example : layoutSize exefsHeaderLayout = 0x200 := by decide
example : fieldOffset ncchHeaderLayout "magic" = 0x100 := by decide
example : fieldOffset ncchHeaderLayout "romfs_size" = 0x1B4 := by decide

/-- Expected 4-byte magic tag, `MakeMagic('N', 'C', 'C', 'H')` read as a
little-endian 32-bit value. -/
def ncchMagic : Nat := 0x4843434E

/-- Block (media) unit size: all region offsets and sizes in the header are in
units of 0x200 bytes. -/
def blockSize : Nat := 0x200

/-- The header fields of `NCCH_Header` the container logic consumes, decoded
values (`flags0` is the first byte of the 8-byte `flags` array). -/
structure NCCH_HeaderData where
  magic : Nat
  content_size : Nat
  program_id : Nat
  extended_header_size : Nat
  flags0 : Nat
  exefs_offset : Nat
  exefs_size : Nat
  romfs_offset : Nat
  romfs_size : Nat
  deriving DecidableEq, Repr

/-- Decode the consumed `NCCH_Header` fields from a 512-byte buffer, at the
offsets the struct layout dictates. -/
def parseNCCHHeader (bs : List Nat) : NCCH_HeaderData :=
  { magic := readU32LE bs (fieldOffset ncchHeaderLayout "magic")
    content_size := readU32LE bs (fieldOffset ncchHeaderLayout "content_size")
    program_id := readU64LE bs (fieldOffset ncchHeaderLayout "program_id")
    extended_header_size :=
      readU32LE bs (fieldOffset ncchHeaderLayout "extended_header_size")
    flags0 := byteAt bs (fieldOffset ncchHeaderLayout "flags")
    exefs_offset := readU32LE bs (fieldOffset ncchHeaderLayout "exefs_offset")
    exefs_size := readU32LE bs (fieldOffset ncchHeaderLayout "exefs_size")
    romfs_offset := readU32LE bs (fieldOffset ncchHeaderLayout "romfs_offset")
    romfs_size := readU32LE bs (fieldOffset ncchHeaderLayout "romfs_size") }

/-- Modelled from the spec: the header's 8-byte flags field has a bit meaning
"content is compressed"; the spec fixes no bit position, taken here as bit 0 of
the first flags byte. -/
def compressedFlag (h : NCCH_HeaderData) : Bool := h.flags0 % 2 = 1

/-- One decoded `ExeFs_SectionHeader`: an 8-byte name plus offset and size. -/
structure ExeFs_SectionHeaderData where
  name : List Nat
  offset : Nat
  size : Nat
  deriving DecidableEq, Repr

/-- Truncate or zero-pad a byte list to exactly `k` bytes. -/
def padTrunc : Nat → List Nat → List Nat
  | 0, _ => []
  | k + 1, [] => 0 :: padTrunc k []
  | k + 1, a :: as => a :: padTrunc k as

/-- Normal form of a section name: exactly 8 bytes, zero padded. Section names
are compared by exact byte match up to 8 bytes. -/
def normName (l : List Nat) : List Nat := padTrunc 8 l

/-- Decode the `i`-th 16-byte section descriptor of an ExeFS header buffer. -/
def parseExeFsSection (bs : List Nat) (i : Nat) : ExeFs_SectionHeaderData :=
  { name := normName ((bs.drop (16 * i)).take 8)
    offset := readU32LE bs (16 * i + 8)
    size := readU32LE bs (16 * i + 12) }

/-- Decode the 8 section descriptors of an `ExeFs_Header` buffer. -/
def parseExeFsHeader (bs : List Nat) : List ExeFs_SectionHeaderData :=
  (List.range 8).map (parseExeFsSection bs)

/-- An all-zero offset/size descriptor denotes an absent section. -/
def sectionAbsent (s : ExeFs_SectionHeaderData) : Bool :=
  s.offset = 0 && s.size = 0

/-- Look a section up by name: first descriptor whose 8-byte name matches
exactly and which is not absent. -/
def findSection (sections : List ExeFs_SectionHeaderData) (name : List Nat) :
    Option ExeFs_SectionHeaderData :=
  sections.find? fun s => normName s.name = normName name && !(sectionAbsent s)

/-- The distinguished code section's name, the bytes of ".code". -/
def codeSectionName : List Nat := [0x2E, 0x63, 0x6F, 0x64, 0x65]

/-- The well-known override section names (code, logo, icon, banner). -/
def wellKnownSectionNames : List (List Nat) :=
  [codeSectionName,
   [0x6C, 0x6F, 0x67, 0x6F],
   [0x69, 0x63, 0x6F, 0x6E],
   [0x62, 0x61, 0x6E, 0x6E, 0x65, 0x72]]

/-- The `NCCHContainer` state: the parsed header pieces, the boolean flags of
the class (all of which start `false`), the binding offset, and the override
state established by `LoadOverrides` (external section files by name, and an
optional external embedded-file-system image). -/
structure NCCHContainer where
  header : NCCH_HeaderData
  exefs_sections : List ExeFs_SectionHeaderData
  has_header : Bool
  has_exheader : Bool
  has_exefs : Bool
  has_romfs : Bool
  is_tainted : Bool
  is_loaded : Bool
  is_compressed : Bool
  ncch_offset : Nat
  overrides : List (List Nat × List Nat)
  override_romfs : Option (List Nat)
  deriving DecidableEq, Repr

/-- The all-zero header value a fresh container starts with. -/
def emptyHeader : NCCH_HeaderData :=
  { magic := 0, content_size := 0, program_id := 0, extended_header_size := 0
    flags0 := 0, exefs_offset := 0, exefs_size := 0, romfs_offset := 0
    romfs_size := 0 }

/-- A fresh container bound at offset `off`: every flag starts `false`, as the
member initializers of `NCCHContainer` dictate. -/
def initContainer (off : Nat) : NCCHContainer :=
  { header := emptyHeader, exefs_sections := [], has_header := false
    has_exheader := false, has_exefs := false, has_romfs := false
    is_tainted := false, is_loaded := false, is_compressed := false
    ncch_offset := off, overrides := [], override_romfs := none }

/-- Modelled from the spec: `NCCHContainer::Load` (its body is not among the
source files). An already loaded container is an idempotent no-op. Otherwise:
read the 512-byte header at the base offset — a short read or a wrong magic tag
is `InvalidFormat`; when the declared extended-header size is positive, the
2048-byte extended header follows immediately after the header and a short read
there is `InvalidFormat`; presence of the ExeFS section table and of the RomFS
region is a nonzero declared size; a present section table is read (512 bytes
at the header's declared ExeFS offset, in block units) and the compressed-code
flag recorded. `loaded` becomes true only once every required piece succeeded;
any failure returns the original not-loaded state unchanged. -/
def Load (c : NCCHContainer) (src : ByteSource) :
    NCCHContainer × ResultStatus :=
  if c.is_loaded then (c, .success)
  else
    match readBytes src c.ncch_offset 0x200 with
    | none => (c, .errorInvalidFormat)
    | some hb =>
      let h := parseNCCHHeader hb
      if h.magic ≠ ncchMagic then (c, .errorInvalidFormat)
      else if 0 < h.extended_header_size ∧
          readBytes src (c.ncch_offset + 0x200) 0x800 = none then
        (c, .errorInvalidFormat)
      else if h.exefs_size ≠ 0 then
        match readBytes src (c.ncch_offset + h.exefs_offset * blockSize) 0x200 with
        | none => (c, .errorInvalidFormat)
        | some eb =>
          ({ c with
             header := h
             exefs_sections := parseExeFsHeader eb
             has_header := true
             has_exheader := 0 < h.extended_header_size
             has_exefs := true
             has_romfs := h.romfs_size ≠ 0
             is_compressed := compressedFlag h
             is_loaded := true }, .success)
      else
        ({ c with
           header := h
           exefs_sections := []
           has_header := true
           has_exheader := 0 < h.extended_header_size
           has_exefs := false
           has_romfs := h.romfs_size ≠ 0
           is_compressed := compressedFlag h
           is_loaded := true }, .success)

/-- Modelled from the spec: `NCCHContainer::LoadSectionExeFS` (its body is not
among the source files). Looks the name up in the section table (`NotFound`
when the table is absent or no live descriptor matches); rejects a descriptor
whose offset+size exceeds the declared content size with `InvalidFormat`;
otherwise reads exactly `size` bytes at `base + exefs region start + offset`
(a short read is `InvalidFormat`); for the distinguished code section with the
compressed flag set the raw bytes pass through the compressed-code transform,
whose failure is `CorruptData`. -/
def LoadSectionExeFS (transform : List Nat → Option (List Nat))
    (c : NCCHContainer) (src : ByteSource) (name : List Nat) :
    ResultStatus × List Nat :=
  if ¬ c.has_exefs then (.errorNotFound, [])
  else
    match findSection c.exefs_sections name with
    | none => (.errorNotFound, [])
    | some s =>
      if c.header.content_size * blockSize < s.offset + s.size then
        (.errorInvalidFormat, [])
      else
        match readBytes src
            (c.ncch_offset + c.header.exefs_offset * blockSize + s.offset)
            s.size with
        | none => (.errorInvalidFormat, [])
        | some raw =>
          if normName name = normName codeSectionName ∧ c.is_compressed then
            match transform raw with
            | none => (.errorCorruptData, [])
            | some out => (.success, out)
          else (.success, raw)

/-- Look an override up by section name among the recorded external files. -/
def lookupOverride (ovs : List (List Nat × List Nat)) (name : List Nat) :
    Option (List Nat) :=
  (ovs.find? fun p => normName p.1 = normName name).map Prod.snd

/-- Modelled from the spec: `NCCHContainer::LoadOverrideExeFSSection` (its body
is not among the source files). Serves the found external file's bytes for the
named section, `NotFound` when no override for it exists. -/
def LoadOverrideExeFSSection (c : NCCHContainer) (name : List Nat) :
    ResultStatus × List Nat :=
  match lookupOverride c.overrides name with
  | some bs => (.success, bs)
  | none => (.errorNotFound, [])

/-- Modelled from the spec: a section access consults the override state first
and falls back to the embedded section table. -/
def accessSection (transform : List Nat → Option (List Nat))
    (c : NCCHContainer) (src : ByteSource) (name : List Nat) :
    ResultStatus × List Nat :=
  match lookupOverride c.overrides name with
  | some bs => (.success, bs)
  | none => LoadSectionExeFS transform c src name

/-- The external files a companion directory offers: section files keyed by
logical section name, plus an optional external embedded-file-system image. -/
structure OverrideEnv where
  files : List (List Nat × List Nat)
  romfs : Option (List Nat)
  deriving DecidableEq, Repr

/-- The well-known-section override files the environment actually provides. -/
def foundOverrides (env : OverrideEnv) : List (List Nat × List Nat) :=
  wellKnownSectionNames.filterMap fun n =>
    (lookupOverride env.files n).map fun bs => (n, bs)

/-- Modelled from the spec: `NCCHContainer::LoadOverrides` (its body is not
among the source files). Probes the companion directory for each well-known
section and for an external embedded-file-system image; any single find sets
`tainted` and takes precedence over embedded content for that section from then
on; finding none is not an error and leaves the container unchanged. -/
def LoadOverrides (c : NCCHContainer) (env : OverrideEnv) :
    NCCHContainer × ResultStatus :=
  ({ c with
     overrides := foundOverrides env ++ c.overrides
     override_romfs := (env.romfs.orElse fun _ => c.override_romfs)
     is_tainted :=
       c.is_tainted || !(foundOverrides env).isEmpty || env.romfs.isSome },
   .success)

/-- Which byte source a RomFS reference points into: the container's primary
file or the external override image file. -/
inductive RomFSHandle where
  | primary
  | overrideFile
  deriving DecidableEq, Repr

/-- Modelled from the spec: the documented fixed region-header length accounted
for when exporting the embedded-file-system reference. -/
def romfsRegionHeaderLength : Nat := 0x1000

/-- Modelled from the spec: `NCCHContainer::ReadRomFS` (its body is not among
the source files). When the embedded region is present, exports a no-copy
reference `(primary handle, base + declared offset in block units + region
header length, declared size in block units - region header length)`;
`NotFound` when absent. -/
def ReadRomFS (c : NCCHContainer) :
    Except ResultStatus (RomFSHandle × Nat × Nat) :=
  if c.has_romfs then
    .ok (.primary,
      c.ncch_offset + c.header.romfs_offset * blockSize + romfsRegionHeaderLength,
      c.header.romfs_size * blockSize - romfsRegionHeaderLength)
  else .error .errorNotFound

/-- Modelled from the spec: `NCCHContainer::ReadOverrideRomFS` (its body is not
among the source files). When an external image was found, exports the whole
external file: its handle, offset 0, and its file size; `NotFound` otherwise. -/
def ReadOverrideRomFS (c : NCCHContainer) :
    Except ResultStatus (RomFSHandle × Nat × Nat) :=
  match c.override_romfs with
  | some bs => .ok (.overrideFile, 0, bs.length)
  | none => .error .errorNotFound

/-- Modelled from the spec: `NCCHContainer::HasExHeader`, an O(1) read of the
flag set during `Load`. -/
def HasExHeader (c : NCCHContainer) : Bool := c.has_exheader

/-- Modelled from the spec: `NCCHContainer::HasExeFS`, an O(1) read of the flag
set during `Load`. -/
def HasExeFS (c : NCCHContainer) : Bool := c.has_exefs

/-- Modelled from the spec: `NCCHContainer::HasRomFS`, an O(1) read of the flag
set during `Load`. -/
def HasRomFS (c : NCCHContainer) : Bool := c.has_romfs

/-- Extraction of a `BitField<pos, len, u8>` value from its storage byte: the
`len` bits starting at bit `pos`. -/
def extractBits (pos len v : Nat) : Nat := v / 2 ^ pos % 2 ^ len

/-- `BitField<0, 2, u8> ideal_processor` of the `flags0` byte of
`ExHeader_ARM11_SystemLocalCaps`. -/
def ideal_processor (flags0 : Nat) : Nat := extractBits 0 2 flags0

/-- `BitField<2, 2, u8> affinity_mask` of the `flags0` byte of
`ExHeader_ARM11_SystemLocalCaps`. -/
def affinity_mask (flags0 : Nat) : Nat := extractBits 2 2 flags0

/-- `BitField<4, 4, u8> system_mode` of the `flags0` byte of
`ExHeader_ARM11_SystemLocalCaps`. -/
def system_mode (flags0 : Nat) : Nat := extractBits 4 4 flags0

/-- `Loader::FileType` from `loader.h`, as `loader.cpp` consumes it. -/
inductive FileType where
  | error
  | unknown
  | cci
  | cxi
  | elf
  | threedsx
  | bin
  deriving DecidableEq, Repr

/-- `IdentifyFile` from `loader.cpp`, as a function of the three probe results
`AppLoader_THREEDSX/ELF/NCCH::IdentifyType(file)`: each probe is tried in that
fixed order and the first result that is not `Error` is returned; `Unknown`
when all three are `Error`. -/
def IdentifyFile (t3dsx telf tncch : FileType) : FileType :=
  if t3dsx ≠ .error then t3dsx
  else if telf ≠ .error then telf
  else if tncch ≠ .error then tncch
  else .unknown

/-- ASCII lower-casing of one byte, the per-character behaviour of
`Common::ToLower` (common/string_util, not among the source files). -/
def toLowerByte (b : Nat) : Nat := if 65 ≤ b ∧ b ≤ 90 then b + 32 else b

/-- ASCII lower-casing of a byte string (`Common::ToLower`). -/
def toLowerBytes (l : List Nat) : List Nat := l.map toLowerByte

/-- The bytes of the extension string ".elf". -/
def extElf : List Nat := [0x2E, 0x65, 0x6C, 0x66]

/-- The bytes of the extension string ".axf". -/
def extAxf : List Nat := [0x2E, 0x61, 0x78, 0x66]

/-- The bytes of the extension string ".cxi". -/
def extCxi : List Nat := [0x2E, 0x63, 0x78, 0x69]

/-- The bytes of the extension string ".cci". -/
def extCci : List Nat := [0x2E, 0x63, 0x63, 0x69]

/-- The bytes of the extension string ".bin". -/
def extBin : List Nat := [0x2E, 0x62, 0x69, 0x6E]

/-- The bytes of the extension string ".3ds". -/
def ext3ds : List Nat := [0x2E, 0x33, 0x64, 0x73]

/-- The bytes of the extension string ".3dsx". -/
def ext3dsx : List Nat := [0x2E, 0x33, 0x64, 0x73, 0x78]

/-- `GuessFromExtension` from `loader.cpp`: lower-cases the filename extension
and maps it to a file type; any unlisted extension is `Unknown`. Extension
strings are embedded as ASCII byte lists. -/
def GuessFromExtension (ext : List Nat) : FileType :=
  let e := toLowerBytes ext
  if e = extElf then .elf
  else if e = extAxf then .elf
  else if e = extCxi then .cxi
  else if e = extCci then .cci
  else if e = extBin then .bin
  else if e = ext3ds then .cci
  else if e = ext3dsx then .threedsx
  else .unknown

/-- The type `LoadFile` ends up dispatching on: the content-identified type,
except that an `Unknown` identification differing from the extension guess is
replaced by the extension guess (`loader.cpp` lines 108-112). -/
def effectiveType (idType extType : FileType) : FileType :=
  if idType ≠ extType ∧ idType = .unknown then extType else idType

/-- The branch the `switch (type)` of `LoadFile` takes: delegation to one of
the app loaders, the raw-binary path, or the immediate
`ResultStatus::ErrorInvalidFormat` return for `Error`/`Unknown`. -/
inductive LoadStep where
  | delegate3dsx
  | delegateElf
  | delegateNcch
  | rawBin
  | failWith (r : ResultStatus)
  deriving DecidableEq, Repr

/-- The `switch (type)` of `LoadFile` in `loader.cpp`: 3DSX and ELF delegate to
their app loaders, CXI and CCI to the NCCH app loader, BIN to the raw path, and
`Error`/`Unknown` return `ErrorInvalidFormat`. -/
def loadFileStep : FileType → LoadStep
  | .threedsx => .delegate3dsx
  | .elf => .delegateElf
  | .cxi => .delegateNcch
  | .cci => .delegateNcch
  | .bin => .rawBin
  | .error => .failWith .errorInvalidFormat
  | .unknown => .failWith .errorInvalidFormat

/-- `LoadFile` from `loader.cpp`, as a function of the three content probe
results and the filename extension: identify, fall back to the extension guess
when identification is `Unknown`, then dispatch. -/
def LoadFile (t3dsx telf tncch : FileType) (ext : List Nat) : LoadStep :=
  loadFileStep (effectiveType (IdentifyFile t3dsx telf tncch)
    (GuessFromExtension ext))

/-! Helper lemmas shared by the claim theorems. -/

theorem padTrunc_length (k : Nat) (l : List Nat) : (padTrunc k l).length = k := by
  induction k generalizing l with
  | zero => rfl
  | succ k ih => cases l <;> simp [padTrunc, ih]

theorem padTrunc_take (k : Nat) (l : List Nat) :
    padTrunc k (l.take k) = padTrunc k l := by
  induction k generalizing l with
  | zero => rfl
  | succ k ih => cases l <;> simp [padTrunc, ih]

theorem readBytes_length {src : ByteSource} {pos len : Nat} {bs : List Nat}
    (h : readBytes src pos len = some bs) : bs.length = len := by
  unfold readBytes at h
  split at h
  · cases h
    simp only [List.length_take, List.length_drop]
    omega
  · cases h

theorem lookupOverride_append (l₁ l₂ : List (List Nat × List Nat))
    (n : List Nat) :
    lookupOverride (l₁ ++ l₂) n =
      (lookupOverride l₁ n).orElse fun _ => lookupOverride l₂ n := by
  induction l₁ with
  | nil => simp [lookupOverride]
  | cons p l ih =>
    by_cases h : normName p.1 = normName n
    · simp [lookupOverride, List.find?, h]
    · simpa [lookupOverride, List.find?, h] using ih

/-! The claim theorems. -/

/-- C6: the container header layout occupies exactly 512 bytes and the
extended header layout exactly 2048 bytes (the constants the struct
`static_assert`s pin down), and any decode that cannot fill the exact byte
count is an `InvalidFormat` error, not an ignored short read: a short read of
the 512-byte header, a short read of the 2048-byte extended header, and a
short read of the 512-byte section table each fail `Load` with
`InvalidFormat`. -/
theorem header_layouts_exact_and_short_read_rejected :
    layoutSize ncchHeaderLayout = 512 ∧ layoutSize exHeaderLayout = 2048 ∧
    (∀ c src, c.is_loaded = false → readBytes src c.ncch_offset 512 = none →
      Load c src = (c, ResultStatus.errorInvalidFormat)) ∧
    (∀ c src hb, c.is_loaded = false →
      readBytes src c.ncch_offset 512 = some hb →
      (parseNCCHHeader hb).magic = ncchMagic →
      0 < (parseNCCHHeader hb).extended_header_size →
      readBytes src (c.ncch_offset + 512) 2048 = none →
      Load c src = (c, ResultStatus.errorInvalidFormat)) ∧
    (∀ c src hb, c.is_loaded = false →
      readBytes src c.ncch_offset 512 = some hb →
      (parseNCCHHeader hb).magic = ncchMagic →
      ¬(0 < (parseNCCHHeader hb).extended_header_size ∧
        readBytes src (c.ncch_offset + 512) 2048 = none) →
      (parseNCCHHeader hb).exefs_size ≠ 0 →
      readBytes src
        (c.ncch_offset + (parseNCCHHeader hb).exefs_offset * blockSize) 512 =
        none →
      Load c src = (c, ResultStatus.errorInvalidFormat)) := by
  refine ⟨by decide, by decide, ?_, ?_, ?_⟩
  · intro c src hl hr
    simp [Load, hl, hr]
  · intro c src hb hl hr hm hx hn
    simp [Load, hl, hr, hm, hx, hn]
  · intro c src hb hl hr hm hx he hn
    simp [Load, hl, hr, hm, hx, he, hn]

/-- A 512-byte header with a valid magic tag and a positive declared
extended-header size, with no bytes following it. -/
def shortExHeaderSrc : ByteSource :=
  List.replicate 256 0 ++ [78, 67, 67, 72] ++ List.replicate 124 0 ++ [1] ++
    List.replicate 127 0

/-- A 512-byte header with a valid magic tag, no extended header, and a
declared section table at block offset 1, with no bytes following it. -/
def shortExeFsSrc : ByteSource :=
  List.replicate 256 0 ++ [78, 67, 67, 72] ++ List.replicate 156 0 ++
    [1, 0, 0, 0, 1] ++ List.replicate 91 0

theorem header_layouts_exact_and_short_read_rejected_witness :
    (initContainer 5).is_loaded = false ∧
    readBytes [] (initContainer 5).ncch_offset 512 = none ∧
    Load (initContainer 5) [] =
      (initContainer 5, ResultStatus.errorInvalidFormat) ∧
    (parseNCCHHeader shortExHeaderSrc).magic = ncchMagic ∧
    0 < (parseNCCHHeader shortExHeaderSrc).extended_header_size ∧
    readBytes shortExHeaderSrc 512 2048 = none ∧
    Load (initContainer 0) shortExHeaderSrc =
      (initContainer 0, ResultStatus.errorInvalidFormat) ∧
    (parseNCCHHeader shortExeFsSrc).magic = ncchMagic ∧
    (parseNCCHHeader shortExeFsSrc).exefs_size ≠ 0 ∧
    readBytes shortExeFsSrc
      ((parseNCCHHeader shortExeFsSrc).exefs_offset * blockSize) 512 = none ∧
    Load (initContainer 0) shortExeFsSrc =
      (initContainer 0, ResultStatus.errorInvalidFormat) := by
  refine ⟨rfl, by decide, ?_, by decide, by decide, by decide, ?_, by decide,
    by decide, by decide, ?_⟩
  · exact header_layouts_exact_and_short_read_rejected.2.2.1 (initContainer 5)
      [] rfl (by decide)
  · exact header_layouts_exact_and_short_read_rejected.2.2.2.1
      (initContainer 0) shortExHeaderSrc shortExHeaderSrc rfl (by decide)
      (by decide) (by decide) (by decide)
  · exact header_layouts_exact_and_short_read_rejected.2.2.2.2
      (initContainer 0) shortExeFsSrc shortExeFsSrc rfl (by decide)
      (by decide) (by decide) (by decide) (by decide)

/-- C9: the `flags0` byte of `ExHeader_ARM11_SystemLocalCaps` is decoded via
bit ranges within the one byte: `ideal_processor` is bits 0-1, `affinity_mask`
bits 2-3, `system_mode` bits 4-7, and the three ranges decompose the byte
exactly. -/
theorem arm11_flags0_bit_ranges (b : Nat) (hb : b < 256) :
    ideal_processor b = b % 4 ∧ affinity_mask b = b / 4 % 4 ∧
    system_mode b = b / 16 ∧
    b = ideal_processor b + 4 * affinity_mask b + 16 * system_mode b := by
  unfold ideal_processor affinity_mask system_mode extractBits
  norm_num
  omega

theorem arm11_flags0_bit_ranges_witness :
    (182 : Nat) < 256 ∧
    (ideal_processor 182 = 182 % 4 ∧ affinity_mask 182 = 182 / 4 % 4 ∧
     system_mode 182 = 182 / 16 ∧
     182 = ideal_processor 182 + 4 * affinity_mask 182 + 16 * system_mode 182) :=
  ⟨by decide, arm11_flags0_bit_ranges 182 (by decide)⟩

/-- C10: `IdentifyFile` probes the candidate loaders in the fixed order 3DSX,
ELF, NCCH and returns the first probe result that is not `Error` (`Unknown`
when all are); when identification yields `Unknown` but the extension yields a
known type, `LoadFile` dispatches on the extension-derived type; and a file
whose effective type is `Unknown` or `Error` makes `LoadFile` return
`ErrorInvalidFormat`. -/
theorem loader_identify_and_dispatch (t1 t2 t3 : FileType) (ext : List Nat) :
    IdentifyFile t1 t2 t3 =
      (([t1, t2, t3].find? fun t => t != FileType.error).getD FileType.unknown) ∧
    IdentifyFile t1 t2 t3 ≠ FileType.error ∧
    (IdentifyFile t1 t2 t3 = FileType.unknown →
      GuessFromExtension ext ≠ FileType.unknown →
      LoadFile t1 t2 t3 ext = loadFileStep (GuessFromExtension ext)) ∧
    ((effectiveType (IdentifyFile t1 t2 t3) (GuessFromExtension ext) =
        FileType.unknown ∨
      effectiveType (IdentifyFile t1 t2 t3) (GuessFromExtension ext) =
        FileType.error) →
      LoadFile t1 t2 t3 ext = LoadStep.failWith ResultStatus.errorInvalidFormat) := by
  refine ⟨?_, ?_, ?_, ?_⟩
  · cases t1 <;> cases t2 <;> cases t3 <;> decide
  · cases t1 <;> cases t2 <;> cases t3 <;> decide
  · intro hu hg
    unfold LoadFile effectiveType
    rw [hu]
    simp [Ne.symm hg]
  · intro h
    unfold LoadFile
    rcases h with h | h <;> rw [h] <;> rfl

theorem loader_identify_and_dispatch_witness :
    IdentifyFile FileType.error FileType.error FileType.error =
      FileType.unknown ∧
    GuessFromExtension extElf ≠ FileType.unknown ∧
    LoadFile FileType.error FileType.error FileType.error extElf =
      LoadStep.delegateElf ∧
    effectiveType (IdentifyFile FileType.error FileType.error FileType.error)
      (GuessFromExtension [0x2E, 0x66, 0x6F, 0x6F]) = FileType.unknown ∧
    LoadFile FileType.error FileType.error FileType.error
      [0x2E, 0x66, 0x6F, 0x6F] =
      LoadStep.failWith ResultStatus.errorInvalidFormat := by
  refine ⟨by decide, by decide, ?_, by decide, ?_⟩
  · exact ((loader_identify_and_dispatch FileType.error FileType.error
      FileType.error extElf).2.2.1 (by decide) (by decide)).trans (by decide)
  · exact (loader_identify_and_dispatch FileType.error FileType.error
      FileType.error [0x2E, 0x66, 0x6F, 0x6F]).2.2.2 (Or.inl (by decide))

/-- C8: on a container on which `Load` has not run (the freshly constructed
state) all of `HasExHeader`, `HasExeFS`, `HasRomFS` return false; a failed
`Load` returns the original state, so they stay false; and each query is a
plain read of a flag set during `Load`. -/
theorem has_queries_false_before_load :
    (∀ off, HasExHeader (initContainer off) = false ∧
      HasExeFS (initContainer off) = false ∧
      HasRomFS (initContainer off) = false) ∧
    (∀ c src, (Load c src).2 ≠ ResultStatus.success → (Load c src).1 = c) ∧
    (∀ c, HasExHeader c = c.has_exheader ∧ HasExeFS c = c.has_exefs ∧
      HasRomFS c = c.has_romfs) := by
  refine ⟨fun off => ⟨rfl, rfl, rfl⟩, ?_, fun c => ⟨rfl, rfl, rfl⟩⟩
  intro c src
  unfold Load
  split
  · intro h; simp at h
  · split
    · intro _; rfl
    · dsimp only
      split
      · intro _; rfl
      · split
        · intro _; rfl
        · split
          · split
            · intro _; rfl
            · intro h; simp at h
          · intro h; simp at h

theorem has_queries_false_before_load_witness :
    (HasExHeader (initContainer 0) = false ∧ HasExeFS (initContainer 0) = false ∧
      HasRomFS (initContainer 0) = false) ∧
    (Load (initContainer 0) []).2 ≠ ResultStatus.success ∧
    (Load (initContainer 0) []).1 = initContainer 0 :=
  ⟨has_queries_false_before_load.1 0, by decide,
    has_queries_false_before_load.2.1 (initContainer 0) [] (by decide)⟩

/-- C5: `ReadRomFS` and `ReadOverrideRomFS` fail independently: with an
embedded region present and no override image, the first returns the primary
source's `(handle, offset, size)` triple while the second returns `NotFound`;
and a successful override variant returns the external file's handle with
offset 0 and the external file's size. -/
theorem romfs_reference_and_override_independent (c : NCCHContainer) :
    (c.has_romfs = true → c.override_romfs = none →
      ReadRomFS c = Except.ok (RomFSHandle.primary,
        c.ncch_offset + c.header.romfs_offset * blockSize +
          romfsRegionHeaderLength,
        c.header.romfs_size * blockSize - romfsRegionHeaderLength) ∧
      ReadOverrideRomFS c = Except.error ResultStatus.errorNotFound) ∧
    (∀ bs, c.override_romfs = some bs →
      ReadOverrideRomFS c = Except.ok (RomFSHandle.overrideFile, 0, bs.length)) := by
  constructor
  · intro h1 h2
    exact ⟨by simp [ReadRomFS, h1], by simp [ReadOverrideRomFS, h2]⟩
  · intro bs h
    simp [ReadOverrideRomFS, h]

theorem romfs_reference_and_override_independent_witness :
    ReadRomFS { initContainer 0 with has_romfs := true } =
      Except.ok (RomFSHandle.primary, 0x1000, 0) ∧
    ReadOverrideRomFS { initContainer 0 with has_romfs := true } =
      Except.error ResultStatus.errorNotFound ∧
    ReadOverrideRomFS { initContainer 0 with override_romfs := some [1, 2, 3] } =
      Except.ok (RomFSHandle.overrideFile, 0, 3) := by
  refine ⟨?_, ?_, ?_⟩
  · exact ((romfs_reference_and_override_independent
      { initContainer 0 with has_romfs := true }).1 rfl rfl).1
  · exact ((romfs_reference_and_override_independent
      { initContainer 0 with has_romfs := true }).1 rfl rfl).2
  · exact (romfs_reference_and_override_independent
      { initContainer 0 with override_romfs := some [1, 2, 3] }).2
      [1, 2, 3] rfl

/-- C1: `Load` on a source whose 4 magic bytes do not equal the expected tag
fails with `InvalidFormat` and returns the container in its original state, so
the loaded flag is still false and the container may be re-`Load`ed from
scratch. -/
theorem load_bad_magic_fails_invalid_format (c : NCCHContainer)
    (src : ByteSource) (hb : List Nat) (hl : c.is_loaded = false)
    (hr : readBytes src c.ncch_offset 512 = some hb)
    (hm : (parseNCCHHeader hb).magic ≠ ncchMagic) :
    Load c src = (c, ResultStatus.errorInvalidFormat) ∧
    (Load c src).1.is_loaded = false := by
  have h : Load c src = (c, ResultStatus.errorInvalidFormat) := by
    simp [Load, hl, hr, hm]
  exact ⟨h, by rw [h]; exact hl⟩

theorem load_bad_magic_fails_invalid_format_witness :
    (initContainer 0).is_loaded = false ∧
    readBytes (List.replicate 512 0) (initContainer 0).ncch_offset 512 =
      some (List.replicate 512 0) ∧
    (parseNCCHHeader (List.replicate 512 0)).magic ≠ ncchMagic ∧
    Load (initContainer 0) (List.replicate 512 0) =
      (initContainer 0, ResultStatus.errorInvalidFormat) := by
  refine ⟨rfl, by decide, by decide, ?_⟩
  exact (load_bad_magic_fails_invalid_format (initContainer 0)
    (List.replicate 512 0) (List.replicate 512 0) rfl (by decide) (by decide)).1

/-- C7: the section table consists of exactly 8 fixed-size 16-byte section
descriptors (an at most 8-byte name plus offset and size) followed by 8 region
hashes, 512 bytes in all; a descriptor whose offset and size are 0 denotes an
absent section and is never returned by lookup; and lookup compares names by
exact byte match up to 8 bytes (bytes past the 8th never matter). -/
theorem section_table_shape_and_name_match :
    layoutSize exefsSectionLayout = 16 ∧
    layoutSize exefsHeaderLayout = 512 ∧
    (∀ bs, (parseExeFsHeader bs).length = 8) ∧
    (∀ bs s, s ∈ parseExeFsHeader bs → s.name.length = 8) ∧
    (∀ sections name s, findSection sections name = some s →
      normName s.name = normName name ∧ ¬(s.offset = 0 ∧ s.size = 0)) ∧
    (∀ sections name,
      findSection sections name = findSection sections (name.take 8)) := by
  refine ⟨by decide, by decide, ?_, ?_, ?_, ?_⟩
  · intro bs
    simp [parseExeFsHeader]
  · intro bs s hs
    simp only [parseExeFsHeader, List.mem_map, List.mem_range] at hs
    obtain ⟨i, _, rfl⟩ := hs
    simp [parseExeFsSection, normName, padTrunc_length]
  · intro sections name s hfind
    have hp := List.find?_some hfind
    simp only [sectionAbsent, Bool.and_eq_true, Bool.not_eq_true',
      Bool.and_eq_false_iff, decide_eq_true_eq, decide_eq_false_iff_not] at hp
    exact ⟨hp.1, fun hc => by rcases hp.2 with h | h <;> [exact h hc.1; exact h hc.2]⟩
  · intro sections name
    simp [findSection, normName, padTrunc_take]

theorem section_table_shape_and_name_match_witness :
    (parseExeFsHeader (List.replicate 512 0)).length = 8 ∧
    (parseExeFsSection (List.replicate 512 0) 0) ∈
      parseExeFsHeader (List.replicate 512 0) ∧
    (parseExeFsSection (List.replicate 512 0) 0).name.length = 8 ∧
    findSection [{ name := normName codeSectionName, offset := 1, size := 2 }]
      codeSectionName =
      some { name := normName codeSectionName, offset := 1, size := 2 } ∧
    (normName (normName codeSectionName) = normName codeSectionName ∧
      ¬((1 : Nat) = 0 ∧ (2 : Nat) = 0)) := by
  refine ⟨section_table_shape_and_name_match.2.2.1 (List.replicate 512 0),
    by decide, ?_, by decide, ?_⟩
  · exact section_table_shape_and_name_match.2.2.2.1 (List.replicate 512 0)
      (parseExeFsSection (List.replicate 512 0) 0) (by decide)
  · exact section_table_shape_and_name_match.2.2.2.2.1
      [{ name := normName codeSectionName, offset := 1, size := 2 }]
      codeSectionName
      { name := normName codeSectionName, offset := 1, size := 2 } (by decide)

/-- C3: a `LoadOverrides` that finds at least one external file sets the
tainted flag, and every subsequent access of an overridden section or region
serves the external file's bytes and size; finding none is a success that
leaves the container exactly as it was; and the override precedence is
permanent: existing overrides (sections, the external image, and the tainted
flag) survive any further `LoadOverrides`. -/
theorem overrides_taint_and_precedence (c : NCCHContainer) (env : OverrideEnv)
    (transform : List Nat → Option (List Nat)) (src : ByteSource) :
    (LoadOverrides c env).2 = ResultStatus.success ∧
    ((foundOverrides env ≠ [] ∨ env.romfs.isSome) →
      (LoadOverrides c env).1.is_tainted = true) ∧
    (foundOverrides env = [] → env.romfs = none → (LoadOverrides c env).1 = c) ∧
    (∀ n bs, lookupOverride (LoadOverrides c env).1.overrides n = some bs →
      accessSection transform (LoadOverrides c env).1 src n =
        (ResultStatus.success, bs) ∧
      LoadOverrideExeFSSection (LoadOverrides c env).1 n =
        (ResultStatus.success, bs)) ∧
    (∀ n bs, lookupOverride (foundOverrides env) n = some bs →
      lookupOverride (LoadOverrides c env).1.overrides n = some bs) ∧
    (∀ n, (lookupOverride c.overrides n).isSome →
      (lookupOverride (LoadOverrides c env).1.overrides n).isSome) ∧
    (c.is_tainted = true → (LoadOverrides c env).1.is_tainted = true) ∧
    (c.override_romfs.isSome → (LoadOverrides c env).1.override_romfs.isSome) ∧
    (∀ bs, env.romfs = some bs →
      ReadOverrideRomFS (LoadOverrides c env).1 =
        Except.ok (RomFSHandle.overrideFile, 0, bs.length)) := by
  refine ⟨rfl, ?_, ?_, ?_, ?_, ?_, ?_, ?_, ?_⟩
  · intro h
    rcases h with h | h
    · cases hfe : foundOverrides env with
      | nil => exact absurd hfe h
      | cons a t => simp [LoadOverrides, hfe]
    · simp [LoadOverrides, h]
  · intro h1 h2
    simp [LoadOverrides, h1, h2]
  · intro n bs h
    exact ⟨by simp [accessSection, h], by simp [LoadOverrideExeFSSection, h]⟩
  · intro n bs h
    have ha := lookupOverride_append (foundOverrides env) c.overrides n
    simp only [LoadOverrides] at ha ⊢
    rw [ha, h]
    rfl
  · intro n h
    have ha := lookupOverride_append (foundOverrides env) c.overrides n
    simp only [LoadOverrides] at ha ⊢
    rw [ha]
    cases hf : lookupOverride (foundOverrides env) n <;> simp [hf, h]
  · intro h
    simp [LoadOverrides, h]
  · intro h
    cases hr : env.romfs <;> simp [LoadOverrides, hr, h]
  · intro bs h
    simp [ReadOverrideRomFS, LoadOverrides, h]

theorem overrides_taint_and_precedence_witness :
    (LoadOverrides
      { initContainer 0 with overrides := [([1], [9])] }
      { files := [(codeSectionName, [7, 7])], romfs := some [5, 5, 5] }).2 =
      ResultStatus.success ∧
    (LoadOverrides
      { initContainer 0 with overrides := [([1], [9])] }
      { files := [(codeSectionName, [7, 7])], romfs := some [5, 5, 5] }).1.is_tainted =
      true ∧
    accessSection (fun _ => none)
      (LoadOverrides
        { initContainer 0 with overrides := [([1], [9])] }
        { files := [(codeSectionName, [7, 7])], romfs := some [5, 5, 5] }).1
      [] codeSectionName = (ResultStatus.success, [7, 7]) ∧
    (lookupOverride
      (LoadOverrides
        { initContainer 0 with overrides := [([1], [9])] }
        { files := [(codeSectionName, [7, 7])], romfs := some [5, 5, 5] }).1.overrides
      [1]).isSome ∧
    ReadOverrideRomFS
      (LoadOverrides
        { initContainer 0 with overrides := [([1], [9])] }
        { files := [(codeSectionName, [7, 7])], romfs := some [5, 5, 5] }).1 =
      Except.ok (RomFSHandle.overrideFile, 0, 3) ∧
    (LoadOverrides { initContainer 0 with overrides := [([1], [9])] }
      { files := [], romfs := none }).1 =
      { initContainer 0 with overrides := [([1], [9])] } := by
  have h := overrides_taint_and_precedence
    { initContainer 0 with overrides := [([1], [9])] }
    { files := [(codeSectionName, [7, 7])], romfs := some [5, 5, 5] }
    (fun _ => none) []
  refine ⟨h.1, h.2.1 (Or.inr (by decide)), ?_, ?_, ?_, ?_⟩
  · exact (h.2.2.2.1 codeSectionName [7, 7] (by decide)).1
  · exact h.2.2.2.2.2.1 [1] (by decide)
  · exact h.2.2.2.2.2.2.2.2 [5, 5, 5] rfl
  · exact (overrides_taint_and_precedence
      { initContainer 0 with overrides := [([1], [9])] }
      { files := [], romfs := none } (fun _ => none) []).2.2.1 rfl rfl

/-- C2 (amended): for a section-table entry `{name, offset, size}` with
offset + size within the declared content size, `LoadSectionExeFS name`
returns exactly `size` bytes read from absolute position
`base + declared ExeFS region offset (block units) + offset`, provided the
matched section is not the distinguished code section while the
compressed-content flag is set (that case returns the transform's output
instead); a name with no live descriptor fails with `NotFound`; and a
descriptor whose offset + size exceeds the declared content size is rejected
with `InvalidFormat`. -/
theorem load_section_exefs_reads_descriptor
    (transform : List Nat → Option (List Nat)) (c : NCCHContainer)
    (src : ByteSource) (name : List Nat) (s : ExeFs_SectionHeaderData)
    (raw : List Nat) (hex : c.has_exefs = true) :
    (findSection c.exefs_sections name = some s →
      s.offset + s.size ≤ c.header.content_size * blockSize →
      readBytes src (c.ncch_offset + c.header.exefs_offset * blockSize + s.offset)
        s.size = some raw →
      ¬(normName name = normName codeSectionName ∧ c.is_compressed = true) →
      LoadSectionExeFS transform c src name = (ResultStatus.success, raw) ∧
      raw.length = s.size) ∧
    (findSection c.exefs_sections name = none →
      LoadSectionExeFS transform c src name = (ResultStatus.errorNotFound, [])) ∧
    (findSection c.exefs_sections name = some s →
      c.header.content_size * blockSize < s.offset + s.size →
      LoadSectionExeFS transform c src name =
        (ResultStatus.errorInvalidFormat, [])) := by
  refine ⟨?_, ?_, ?_⟩
  · intro hfind hbound hread hnc
    have hnlt : ¬(c.header.content_size * blockSize < s.offset + s.size) :=
      Nat.not_lt.mpr hbound
    exact ⟨by simp [LoadSectionExeFS, hex, hfind, hnlt, hread, hnc],
      readBytes_length hread⟩
  · intro hfind
    simp [LoadSectionExeFS, hex, hfind]
  · intro hfind hlt
    simp [LoadSectionExeFS, hex, hfind, hlt]

/-- C2 counterexample: a container with the compressed-content flag set and a
one-byte ".code" entry, with a transform returning the empty list, so the call
does not return the descriptor's 1 raw byte. -/
def compressedCodeContainer : NCCHContainer :=
  { initContainer 0 with
    header := { emptyHeader with content_size := 1 }
    exefs_sections :=
      [{ name := normName codeSectionName, offset := 0, size := 1 }]
    has_exefs := true
    is_loaded := true
    is_compressed := true }

theorem load_section_exefs_raw_bytes_counterexample :
    findSection compressedCodeContainer.exefs_sections codeSectionName =
      some { name := normName codeSectionName, offset := 0, size := 1 } ∧
    0 + 1 ≤ compressedCodeContainer.header.content_size * blockSize ∧
    readBytes [42]
      (compressedCodeContainer.ncch_offset +
        compressedCodeContainer.header.exefs_offset * blockSize + 0) 1 =
      some [42] ∧
    LoadSectionExeFS (fun _ => some []) compressedCodeContainer [42]
      codeSectionName = (ResultStatus.success, []) ∧
    (LoadSectionExeFS (fun _ => some []) compressedCodeContainer [42]
      codeSectionName).2 ≠ [42] := by
  refine ⟨by decide, by decide, by decide, by decide, by decide⟩

/-- A concrete loaded container with an uncompressed three-byte "logo"
section. -/
def plainLogoContainer : NCCHContainer :=
  { initContainer 0 with
    header := { emptyHeader with content_size := 1 }
    exefs_sections :=
      [{ name := normName [0x6C, 0x6F, 0x67, 0x6F], offset := 2, size := 3 }]
    has_exefs := true
    is_loaded := true }

/-- A concrete loaded container whose only descriptor overflows the declared
content size. -/
def oobContainer : NCCHContainer :=
  { initContainer 0 with
    header := { emptyHeader with content_size := 1 }
    exefs_sections :=
      [{ name := normName [0x6C, 0x6F, 0x67, 0x6F], offset := 600, size := 1 }]
    has_exefs := true
    is_loaded := true }

theorem load_section_exefs_reads_descriptor_witness :
    plainLogoContainer.has_exefs = true ∧
    LoadSectionExeFS (fun _ => none) plainLogoContainer [9, 9, 10, 11, 12]
      [0x6C, 0x6F, 0x67, 0x6F] = (ResultStatus.success, [10, 11, 12]) ∧
    ([10, 11, 12] : List Nat).length = 3 ∧
    LoadSectionExeFS (fun _ => none) plainLogoContainer [9, 9, 10, 11, 12]
      [0x58] = (ResultStatus.errorNotFound, []) ∧
    LoadSectionExeFS (fun _ => none) oobContainer [9, 9, 10, 11, 12]
      [0x6C, 0x6F, 0x67, 0x6F] = (ResultStatus.errorInvalidFormat, []) := by
  have h := load_section_exefs_reads_descriptor (fun _ => none)
    plainLogoContainer [9, 9, 10, 11, 12] [0x6C, 0x6F, 0x67, 0x6F]
    { name := normName [0x6C, 0x6F, 0x67, 0x6F], offset := 2, size := 3 }
    [10, 11, 12] rfl
  refine ⟨rfl, (h.1 (by decide) (by decide) (by decide) (by decide)).1,
    (h.1 (by decide) (by decide) (by decide) (by decide)).2, ?_, ?_⟩
  · exact (load_section_exefs_reads_descriptor (fun _ => none)
      plainLogoContainer [9, 9, 10, 11, 12] [0x58]
      { name := normName [0x6C, 0x6F, 0x67, 0x6F], offset := 2, size := 3 }
      [10, 11, 12] rfl).2.1 (by decide)
  · exact (load_section_exefs_reads_descriptor (fun _ => none)
      oobContainer [9, 9, 10, 11, 12] [0x6C, 0x6F, 0x67, 0x6F]
      { name := normName [0x6C, 0x6F, 0x67, 0x6F], offset := 600, size := 1 }
      [10, 11, 12] rfl).2.2 (by decide) (by decide)

/-- C4: with the compressed-content flag set, `LoadSectionExeFS` on the
distinguished code section never returns the raw bytes: the returned buffer is
always the compressed-code transform's output, and a transform failure yields
`CorruptData`. -/
theorem compressed_code_always_transformed
    (transform : List Nat → Option (List Nat)) (c : NCCHContainer)
    (src : ByteSource) (name : List Nat) (s : ExeFs_SectionHeaderData)
    (raw : List Nat) (hcomp : c.is_compressed = true)
    (hname : normName name = normName codeSectionName)
    (hex : c.has_exefs = true)
    (hfind : findSection c.exefs_sections name = some s)
    (hbound : s.offset + s.size ≤ c.header.content_size * blockSize)
    (hread : readBytes src
      (c.ncch_offset + c.header.exefs_offset * blockSize + s.offset) s.size =
      some raw) :
    (transform raw = none →
      LoadSectionExeFS transform c src name =
        (ResultStatus.errorCorruptData, [])) ∧
    (∀ out, transform raw = some out →
      LoadSectionExeFS transform c src name = (ResultStatus.success, out)) := by
  have hnlt : ¬(c.header.content_size * blockSize < s.offset + s.size) :=
    Nat.not_lt.mpr hbound
  constructor
  · intro ht
    simp [LoadSectionExeFS, hex, hfind, hnlt, hread, hname, hcomp, ht]
  · intro out ht
    simp [LoadSectionExeFS, hex, hfind, hnlt, hread, hname, hcomp, ht]

theorem compressed_code_always_transformed_witness :
    LoadSectionExeFS (fun l => some (l ++ l)) compressedCodeContainer [42]
      codeSectionName = (ResultStatus.success, [42, 42]) ∧
    LoadSectionExeFS (fun _ => none) compressedCodeContainer [42]
      codeSectionName = (ResultStatus.errorCorruptData, []) := by
  constructor
  · exact (compressed_code_always_transformed (fun l => some (l ++ l))
      compressedCodeContainer [42] codeSectionName
      { name := normName codeSectionName, offset := 0, size := 1 } [42]
      rfl rfl rfl (by decide) (by decide) (by decide)).2 [42, 42] rfl
  · exact (compressed_code_always_transformed (fun _ => none)
      compressedCodeContainer [42] codeSectionName
      { name := normName codeSectionName, offset := 0, size := 1 } [42]
      rfl rfl rfl (by decide) (by decide) (by decide)).1 rfl

end Citra
